import Mathlib

/-!
A shallow embedding of astropop's `_db` tabular storage layer (the
`SQLDatabase` / `SQLTable` / `SQLColumn` / `SQLRow` family and the
identifier sanitizer), together with proofs about it.

The implementation module itself is not present in this source tree; only
its test suite (`tests/test_db.py`) is.  The definitions below are
therefore modelled from the specification's description of the layer
(data model, operations, indexing resolver, query builder), with the test
suite fixing the observable behaviour wherever the two disagree or the
spec is silent.  Machine integers are modelled as `Int`, SQL NULL as an
explicit `Value.null`, and every fallible operation returns
`Except DBError`.
-/

/-- A dynamically-typed cell value of the storage layer.  The backing
engine stores NULLs, numbers and text; this is enough for every behaviour
the layer's contract talks about. -/
inductive Value where
  | null : Value
  | int : Int → Value
  | str : String → Value
deriving DecidableEq, Repr

/-- The error taxonomy of the layer: key errors (unknown table/column),
index errors (row position out of range), type errors (ill-typed payload),
value errors (shape/option validation) and pass-through backing-engine
errors. -/
inductive DBError where
  | keyError : DBError
  | indexError : DBError
  | typeError : DBError
  | valueError : DBError
  | engineError : DBError
deriving DecidableEq, Repr

/-- Modelled from the spec: the Identifier Sanitizer keeps letters, digits
and underscores and replaces every other character by an underscore.  This
is the per-character step. -/
def sanitizeChar (c : Char) : Char :=
  if c.isAlphanum || c = '_' then c else '_'

/-- Modelled from the spec: the Identifier Sanitizer (`_sanitize_colnames`
for a single string, whose implementation module is missing from this
tree): a pure, total map over the characters of the string. -/
def sanitize_colnames (s : String) : String :=
  ⟨s.data.map sanitizeChar⟩

/-- One table: an ordered list of declared column names and the rows in
identity (insertion) order.  The hidden auto-increment identity column of
the backing store is represented by the list position itself. -/
structure Table where
  cols : List String
  rows : List (List Value)
deriving DecidableEq, Repr

/-- Invariant of the data model: every row has a value (possibly null)
for every declared column. -/
def Table.WF (T : Table) : Prop :=
  ∀ r ∈ T.rows, r.length = T.cols.length

instance (T : Table) : Decidable T.WF :=
  inferInstanceAs (Decidable (∀ r ∈ T.rows, r.length = T.cols.length))

/-- A database: the ordered association of table names to tables
(insertion order preserved, names unique). -/
abbrev Database := List (String × Table)

/-- First-match association lookup (models a `dict` keyed by name). -/
def alookup {α : Type} : List (String × α) → String → Option α
  | [], _ => none
  | (k, v) :: rest, c => if k = c then some v else alookup rest c

/-- Look a table up by name. -/
def findTable (db : Database) (t : String) : Option Table :=
  alookup db t

/-- Replace the (first) table of the given name, leaving the rest of the
database untouched. -/
def updateTable : Database → String → Table → Database
  | [], _, _ => []
  | (n, T) :: rest, t, T' =>
    if n = t then (n, T') :: rest else (n, T) :: updateTable rest t T'

/-- Position of a column name in the declared column list (first match). -/
def colPos : List String → String → Option Nat
  | [], _ => none
  | k :: rest, c => if k = c then some 0 else (colPos rest c).map (· + 1)

/-- The indexing resolver's treatment of a signed row position against a
count `n`: `0 ≤ i < n` is itself, `-n ≤ i < 0` wraps to `i + n`, anything
else is out of range. -/
def resolveIndex (i : Int) (n : Nat) : Option Nat :=
  if 0 ≤ i then (if i < n then some i.toNat else none)
  else (if 0 ≤ i + n then some (i + n).toNat else none)

/-- Resolve a whole list of signed positions; any out-of-range member
makes the whole resolution fail (all-or-nothing bulk addressing). -/
def resolveAll (is : List Int) (n : Nat) : Option (List Nat) :=
  match is with
  | [] => some []
  | i :: rest =>
    match resolveIndex i n, resolveAll rest n with
    | some k, some ks => some (k :: ks)
    | _, _ => none

/-- A live row view: a non-owning reference bundle of table name and the
position captured (already resolved) at creation time.  Every access
re-resolves against the current database. -/
structure SQLRow where
  table : String
  index : Nat
deriving DecidableEq, Repr

/-- A live column view: a non-owning reference bundle of table name and
column name.  Every access re-resolves against the current database. -/
structure SQLColumn where
  table : String
  name : String
deriving DecidableEq, Repr

/-- A bracket key accepted by a Row view: a column name or a signed
position. -/
inductive RowKey where
  | name : String → RowKey
  | pos : Int → RowKey
deriving DecidableEq, Repr

/-- A dynamically-typed payload handed to a whole-row or whole-column
write: a mapping, a plain sequence, or a scalar (standing for every
non-mapping, non-sequence Python value). -/
inductive Payload where
  | map : List (String × Value) → Payload
  | seq : List Value → Payload
  | scalar : Value → Payload
deriving DecidableEq, Repr

/-- The right-hand side of a bulk (list/slice) column write: a scalar to
broadcast or a sequence that must match the number of addressed cells. -/
inductive SetVal where
  | scalar : Value → SetVal
  | seq : List Value → SetVal
deriving DecidableEq, Repr

/-- Expand a bulk write payload to one value per addressed cell:
scalars broadcast, sequences must match the length exactly. -/
def broadcast (sv : SetVal) (n : Nat) : Option (List Value) :=
  match sv with
  | .scalar v => some (List.replicate n v)
  | .seq l => if l.length = n then some l else none

/-- Write one cell of a table (row `i`, column position `j`). -/
def setCell (T : Table) (i j : Nat) (v : Value) : Table :=
  { T with rows := T.rows.set i ((T.rows.getD i []).set j v) }

/-- Write a batch of cells of one column position `j`, one row position
per value (callers pair `ks` and `vs` of equal length). -/
def setCells (T : Table) (j : Nat) : List Nat → List Value → Table
  | k :: ks, v :: vs => setCells (setCell T k j v) j ks vs
  | _, _ => T

/-- `get_row`: resolve a signed row position into a live Row view.
Unknown table is a key error; out-of-range position (either sign) is an
index error. -/
def get_row (db : Database) (t : String) (i : Int) : Except DBError SQLRow :=
  match findTable db t with
  | none => .error .keyError
  | some T =>
    match resolveIndex i T.rows.length with
    | none => .error .indexError
    | some k => .ok ⟨t, k⟩

/-- `get_column`: a live Column view.  Unknown table or column is a key
error. -/
def get_column (db : Database) (t c : String) : Except DBError SQLColumn :=
  match findTable db t with
  | none => .error .keyError
  | some T =>
    match colPos T.cols c with
    | none => .error .keyError
    | some _ => .ok ⟨t, c⟩

/-- The values of a Row view, re-read from the live store. -/
def row_values (db : Database) (r : SQLRow) : Except DBError (List Value) :=
  match findTable db r.table with
  | none => .error .keyError
  | some T =>
    match T.rows[r.index]? with
    | none => .error .indexError
    | some row => .ok row

/-- The values of a Column view, re-read from the live store. -/
def col_values (db : Database) (c : SQLColumn) : Except DBError (List Value) :=
  match findTable db c.table with
  | none => .error .keyError
  | some T =>
    match colPos T.cols c.name with
    | none => .error .keyError
    | some j => .ok (T.rows.map (fun r => r.getD j .null))

/-- All values of a table, row by row in identity order. -/
def table_values (db : Database) (t : String) : Except DBError (List (List Value)) :=
  match findTable db t with
  | none => .error .keyError
  | some T => .ok T.rows

/-- Row view read, by column name (key error if absent) or by signed
position (index error if out of `[-ncols, ncols-1]`). -/
def row_get (db : Database) (r : SQLRow) (key : RowKey) : Except DBError Value :=
  match findTable db r.table with
  | none => .error .keyError
  | some T =>
    match T.rows[r.index]? with
    | none => .error .indexError
    | some row =>
      match key with
      | .name c =>
        match colPos T.cols c with
        | none => .error .keyError
        | some j => .ok (row.getD j .null)
      | .pos i =>
        match resolveIndex i T.cols.length with
        | none => .error .indexError
        | some j => .ok (row.getD j .null)

/-- Row view write.  By column name an absent column is a key error; by
signed position, the observed behaviour of the layer (fixed by its test
suite) is that an out-of-range position is ALSO a key error — unlike the
corresponding read, which raises an index error. -/
def row_set (db : Database) (r : SQLRow) (key : RowKey) (v : Value) :
    Except DBError Database :=
  match findTable db r.table with
  | none => .error .keyError
  | some T =>
    if r.index < T.rows.length then
      match key with
      | .name c =>
        match colPos T.cols c with
        | none => .error .keyError
        | some j => .ok (updateTable db r.table (setCell T r.index j v))
      | .pos i =>
        match resolveIndex i T.cols.length with
        | none => .error .keyError
        | some j => .ok (updateTable db r.table (setCell T r.index j v))
    else .error .indexError

/-- Column view single-position write (negative positions allowed,
out-of-range is an index error). -/
def col_set_int (db : Database) (c : SQLColumn) (i : Int) (v : Value) :
    Except DBError Database :=
  match findTable db c.table with
  | none => .error .keyError
  | some T =>
    match colPos T.cols c.name with
    | none => .error .keyError
    | some j =>
      match resolveIndex i T.rows.length with
      | none => .error .indexError
      | some k => .ok (updateTable db c.table (setCell T k j v))

/-- Column view bulk read by a list of signed positions: all-or-nothing,
any out-of-range member fails the whole call with an index error. -/
def col_get_list (db : Database) (c : SQLColumn) (is : List Int) :
    Except DBError (List Value) :=
  match findTable db c.table with
  | none => .error .keyError
  | some T =>
    match colPos T.cols c.name with
    | none => .error .keyError
    | some j =>
      match resolveAll is T.rows.length with
      | none => .error .indexError
      | some ks => .ok (ks.map (fun k => (T.rows.getD k []).getD j .null))

/-- Column view bulk write by a list of signed positions: every position
is resolved before anything is written, so a single out-of-range member
fails the whole call with an index error and no cell is touched. -/
def col_set_list (db : Database) (c : SQLColumn) (is : List Int) (sv : SetVal) :
    Except DBError Database :=
  match findTable db c.table with
  | none => .error .keyError
  | some T =>
    match colPos T.cols c.name with
    | none => .error .keyError
    | some j =>
      match resolveAll is T.rows.length with
      | none => .error .indexError
      | some ks =>
        match broadcast sv ks.length with
        | none => .error .valueError
        | some vs => .ok (updateTable db c.table (setCells T j ks vs))

/-- A Python-style slice object: optional start, stop and step. -/
structure PySlice where
  start : Option Int
  stop : Option Int
  step : Option Int
deriving DecidableEq, Repr

/-- The positions a slice addresses over a sequence of length `n`,
following the standard slice resolution (defaults and clamping on both
signs, positive or negative step).  Callers reject a zero step before
calling.  Every produced position is in `[0, n)`. -/
def sliceIndices (s : PySlice) (n : Nat) : List Int :=
  let step := s.step.getD 1
  if step > 0 then
    let lo : Int := match s.start with
      | none => 0
      | some v => if v < 0 then max (v + n) 0 else min v n
    let hi : Int := match s.stop with
      | none => n
      | some v => if v < 0 then max (v + n) 0 else min v n
    let len := ((hi - lo + step - 1) / step).toNat
    (List.range len).map (fun k => lo + step * k)
  else
    let lo : Int := match s.start with
      | none => (n : Int) - 1
      | some v => if v < 0 then max (v + n) (-1) else min v ((n : Int) - 1)
    let hi : Int := match s.stop with
      | none => -1
      | some v => if v < 0 then max (v + n) (-1) else min v ((n : Int) - 1)
    let len := ((lo - hi + (-step) - 1) / (-step)).toNat
    (List.range len).map (fun k => lo + step * k)

/-- Column view slice write: slices clamp rather than fail, a zero step is
a value error, and the payload broadcasts like a list write. -/
def col_set_slice (db : Database) (c : SQLColumn) (s : PySlice) (sv : SetVal) :
    Except DBError Database :=
  if s.step = some 0 then .error .valueError
  else
    match findTable db c.table with
    | none => .error .keyError
    | some T =>
      match colPos T.cols c.name with
      | none => .error .keyError
      | some j =>
        let ks := (sliceIndices s T.rows.length).map Int.toNat
        match broadcast sv ks.length with
        | none => .error .valueError
        | some vs => .ok (updateTable db c.table (setCells T j ks vs))

/-- `set_row`: replace a whole row by signed position.  Out-of-range is an
index error, a non-mapping payload a type error; the replacement row takes
the mapping's value for each declared column, null when absent. -/
def set_row (db : Database) (t : String) (i : Int) (p : Payload) :
    Except DBError Database :=
  match findTable db t with
  | none => .error .keyError
  | some T =>
    match resolveIndex i T.rows.length with
    | none => .error .indexError
    | some k =>
      match p with
      | .map m =>
        .ok (updateTable db t
          { T with rows := T.rows.set k (T.cols.map (fun c => (alookup m c).getD .null)) })
      | _ => .error .typeError

/-- `set_column`: replace all values of an existing column.  Unknown
column is a key error, a length mismatch a value error. -/
def set_column (db : Database) (t c : String) (vals : List Value) :
    Except DBError Database :=
  match findTable db t with
  | none => .error .keyError
  | some T =>
    match colPos T.cols c with
    | none => .error .keyError
    | some j =>
      if vals.length = T.rows.length then
        .ok (updateTable db t
          { T with rows := (T.rows.zip vals).map (fun rv => rv.1.set j rv.2) })
      else .error .valueError

/-- `add_column`: add a column to an existing table, its name passed
through the sanitizer.  Without data a non-empty table is backfilled with
nulls; with data the length must equal the current row count, except that
on a table with no rows the data defines the row count (existing declared
columns are then backfilled with nulls).  Declared-type inference
(`dtype`) is not modelled — it never changes the stored values here. -/
def add_column (db : Database) (t nm : String) (data : Option (List Value)) :
    Except DBError Database :=
  match findTable db t with
  | none => .error .keyError
  | some T =>
    let n := sanitize_colnames nm
    match data with
    | none =>
      .ok (updateTable db t
        { cols := T.cols ++ [n], rows := T.rows.map (· ++ [Value.null]) })
    | some d =>
      if T.rows.length = 0 then
        .ok (updateTable db t
          { cols := T.cols ++ [n],
            rows := d.map (fun v => (T.cols.map fun _ => Value.null) ++ [v]) })
      else if d.length = T.rows.length then
        .ok (updateTable db t
          { cols := T.cols ++ [n],
            rows := (T.rows.zip d).map (fun rv => rv.1 ++ [rv.2]) })
      else .error .valueError

/-- The mapping keys that are not yet declared columns, in first-occurrence
order (the columns `add_row` creates when asked to). -/
def newKeys (cols : List String) : List String → List String
  | [] => []
  | k :: rest =>
    if k ∈ cols then newKeys cols rest else k :: newKeys (cols ++ [k]) rest

/-- `add_row`: append one row given as a mapping.  Keys naming no declared
column are silently dropped unless `addCols` is set, in which case each new
key first becomes a new column backfilled with null for all prior rows;
declared columns the mapping misses get null.  A non-mapping payload is a
type error. -/
def add_row (db : Database) (t : String) (p : Payload) (addCols : Bool) :
    Except DBError Database :=
  match findTable db t with
  | none => .error .keyError
  | some T =>
    match p with
    | .map m =>
      match addCols with
      | false =>
        .ok (updateTable db t
          { cols := T.cols,
            rows := T.rows ++ [T.cols.map (fun c => (alookup m c).getD .null)] })
      | true =>
        let extra := newKeys T.cols (m.map Prod.fst)
        .ok (updateTable db t
          { cols := T.cols ++ extra,
            rows := T.rows.map (· ++ extra.map fun _ => Value.null)
              ++ [(T.cols ++ extra).map (fun c => (alookup m c).getD .null)] })
    | _ => .error .typeError

/-- The `columns` argument of `select`: absent (all declared columns, in
order), a single column-name string, or an explicit list of names. -/
inductive Cols where
  | all : Cols
  | one : String → Cols
  | list : List String → Cols
deriving DecidableEq, Repr

/-- The `where` argument of `select`: absent, a mapping of column to
exact-match value (conjunction of equalities), or an ill-typed value.
Free-form predicate strings are evaluated by the backing engine, not by
this layer, and are not modelled. -/
inductive WhereArg where
  | absent : WhereArg
  | map : List (String × Value) → WhereArg
  | invalid : WhereArg
deriving DecidableEq, Repr

/-- The dynamically-typed value `select` returns: a sequence of row tuples,
or (what the spec alone claims for single-column calls) a flat sequence of
scalars. -/
inductive SelectResult where
  | rows : List (List Value) → SelectResult
  | flat : List Value → SelectResult
deriving DecidableEq, Repr

/-- Whether a `select` result is the flat-scalars shape. -/
def SelectResult.isFlat : Except DBError SelectResult → Bool
  | .ok (.flat _) => true
  | _ => false

/-- The backing engine's ascending value order: NULLs first, then numbers,
then text. -/
def valueLtB : Value → Value → Bool
  | .null, .null => false
  | .null, _ => true
  | .int _, .null => false
  | .int a, .int b => a < b
  | .int _, .str _ => true
  | .str _, .null => false
  | .str _, .int _ => false
  | .str a, .str b => a < b

/-- Insert into a sorted list, keeping the new element after existing
elements it does not strictly precede. -/
def insertBy {α : Type} (lt : α → α → Bool) (x : α) : List α → List α
  | [] => [x]
  | y :: ys => if lt x y then x :: y :: ys else y :: insertBy lt x ys

/-- Insertion sort (ascending under `lt`). -/
def sortBy {α : Type} (lt : α → α → Bool) : List α → List α
  | [] => []
  | x :: xs => insertBy lt x (sortBy lt xs)

/-- Evaluate a mapping-form `where` against the rows (a conjunction of
per-column equalities); a column the table does not declare surfaces the
backing engine's own error. -/
def whereFilter (T : Table) (w : WhereArg) : Except DBError (List (List Value)) :=
  match w with
  | .absent => .ok T.rows
  | .map m =>
    if m.all (fun kv => (colPos T.cols kv.1).isSome) then
      .ok (T.rows.filter (fun row =>
        m.all (fun kv =>
          match colPos T.cols kv.1 with
          | some j => row.getD j .null == kv.2
          | none => false)))
    else .error .engineError
  | .invalid => .error .typeError

/-- Sort the matched rows ascending by the named column, if an order was
requested; an unknown order column surfaces the backing engine's error. -/
def orderRows (T : Table) (order : Option String) (rs : List (List Value)) :
    Except DBError (List (List Value)) :=
  match order with
  | none => .ok rs
  | some c =>
    match colPos T.cols c with
    | none => .error .engineError
    | some j => .ok (sortBy (fun r1 r2 => valueLtB (r1.getD j .null) (r2.getD j .null)) rs)

/-- Project each matched row to the requested columns, in request order. -/
def projectRows (T : Table) (colList : List String) (rs : List (List Value)) :
    List (List Value) :=
  rs.map (fun row => colList.map (fun c =>
    match colPos T.cols c with
    | some j => row.getD j .null
    | none => .null))

/-- Apply `offset` (drop) then `limit` (take), the backing engine's
pagination of an already-ordered result. -/
def paginate {α : Type} (limit offset : Option Nat) (rs : List α) : List α :=
  let dropped := rs.drop (offset.getD 0)
  match limit with
  | none => dropped
  | some l => dropped.take l

/-- Whether the `where` argument is of an accepted type. -/
def whereOk : WhereArg → Bool
  | .invalid => false
  | _ => true

/-- `select`: validate options first (`offset` without `limit` is a value
error, an ill-typed `where` a type error), then resolve the table and the
requested columns (unknown ones surface the backing engine's error),
filter, order, paginate and project.  The result is always a sequence of
row tuples — one tuple per matching row — fully materialized. -/
def select (db : Database) (t : String) (columns : Cols) (w : WhereArg)
    (order : Option String) (limit offset : Option Nat) :
    Except DBError SelectResult :=
  if offset.isSome && limit.isNone then .error .valueError
  else if !whereOk w then .error .typeError
  else
    match findTable db t with
    | none => .error .engineError
    | some T =>
      let colList := match columns with
        | .all => T.cols
        | .one c => [c]
        | .list l => l
      if colList.all (fun c => (colPos T.cols c).isSome) then
        match whereFilter T w with
        | .error e => .error e
        | .ok matched =>
          match orderRows T order matched with
          | .error e => .error e
          | .ok sorted => .ok (.rows (projectRows T colList (paginate limit offset sorted)))
      else .error .engineError

/-- One component of a bracket key on Table or Database: a string, a
signed integer, a list of signed integers, or a slice. -/
inductive TKey where
  | str : String → TKey
  | int : Int → TKey
  | list : List Int → TKey
  | slice : PySlice → TKey
deriving DecidableEq, Repr

/-- Turn a bulk-write payload into the column view's broadcastable form;
a mapping on a cell/bulk write is ill-typed. -/
def Payload.toSetVal : Payload → Option SetVal
  | .scalar v => some (.scalar v)
  | .seq l => some (.seq l)
  | .map _ => none

/-- Table-level bracket assignment (the Indexing Resolver's write rules):
a single integer key is a whole-row replace (mapping payload), a single
string key a whole-column replace (sequence payload), a (column,
row-selector) pair in either order a cell or bulk write; every other key
shape is a key error. -/
def table_set (db : Database) (t : String) (key : List TKey) (v : Payload) :
    Except DBError Database :=
  match key with
  | [.int i] => set_row db t i v
  | [.str c] =>
    (match v with
     | .seq l => set_column db t c l
     | _ => .error .typeError)
  | [.str c, .int i] =>
    (match v with
     | .scalar val => col_set_int db ⟨t, c⟩ i val
     | _ => .error .typeError)
  | [.int i, .str c] =>
    (match v with
     | .scalar val => col_set_int db ⟨t, c⟩ i val
     | _ => .error .typeError)
  | [.str c, .list l] =>
    (match v.toSetVal with
     | some sv => col_set_list db ⟨t, c⟩ l sv
     | none => .error .typeError)
  | [.list l, .str c] =>
    (match v.toSetVal with
     | some sv => col_set_list db ⟨t, c⟩ l sv
     | none => .error .typeError)
  | [.str c, .slice s] =>
    (match v.toSetVal with
     | some sv => col_set_slice db ⟨t, c⟩ s sv
     | none => .error .typeError)
  | [.slice s, .str c] =>
    (match v.toSetVal with
     | some sv => col_set_slice db ⟨t, c⟩ s sv
     | none => .error .typeError)
  | _ => .error .keyError

/-- A bracket key on the Database: a single (non-tuple) component, or a
tuple of two or three components. -/
inductive DBKey where
  | single : TKey → DBKey
  | pair : TKey → TKey → DBKey
  | triple : TKey → TKey → TKey → DBKey
deriving DecidableEq, Repr

/-- Database-level bracket assignment: only a 2-tuple `(table, x)` or a
3-tuple `(table, a, b)` whose first component is a table-name string is
accepted (each delegating to the Table-level resolver); every single
(non-tuple) key — string, integer, list or slice — and every tuple not
led by a string is a key error. -/
def db_setitem (db : Database) (key : DBKey) (v : Payload) :
    Except DBError Database :=
  match key with
  | .pair (.str t) b => table_set db t [b] v
  | .triple (.str t) b c => table_set db t [b, c] v
  | _ => .error .keyError

/-- The cell at row `i`, column position `j` of a table, if present (used
to state frame conditions). -/
def cellVal (db : Database) (t : String) (i j : Nat) : Option Value :=
  match findTable db t with
  | none => none
  | some T =>
    match T.rows[i]? with
    | none => none
    | some r => r[j]?

/-- The ten-row, two-column table the implementation's test suite builds
(`a = 10..19`, `b = 20..29`). -/
def sampleTable : Table :=
  { cols := [("a"), ("b")],
    rows := [[.int 10, .int 20], [.int 11, .int 21],
             [.int 12, .int 22], [.int 13, .int 23],
             [.int 14, .int 24], [.int 15, .int 25],
             [.int 16, .int 26], [.int 17, .int 27],
             [.int 18, .int 28], [.int 19, .int 29]] }

/-- A database holding just `sampleTable` under the name `test`. -/
def sampleDb : Database := [(("test"), sampleTable)]

/-- A smaller concrete table (`a`, `b` with one row `(1, 2)`), as used by
the row-insertion tests. -/
def tinyTable : Table := { cols := [("a"), ("b")], rows := [[.int 1, .int 2]] }

/-- A database holding just `tinyTable` under the name `test`. -/
def tinyDb : Database := [(("test"), tinyTable)]

/-- `column_names` introspection: the declared column list of a table. -/
def column_names (db : Database) (t : String) : Except DBError (List String) :=
  match findTable db t with
  | none => .error .keyError
  | some T => .ok T.cols

theorem findTable_updateTable (db : Database) (t : String) (T T' : Table)
    (h : findTable db t = some T) :
    findTable (updateTable db t T') t = some T' := by
  induction db with
  | nil => simp [findTable, alookup] at h
  | cons p rest ih =>
    obtain ⟨n, Tb⟩ := p
    by_cases hn : n = t
    · simp [findTable, alookup, updateTable, hn]
    · simp_all [findTable, alookup, updateTable, hn]

theorem findTable_updateTable_ne (db : Database) (t t' : String) (T' : Table)
    (h : t' ≠ t) :
    findTable (updateTable db t T') t' = findTable db t' := by
  induction db with
  | nil => simp [findTable, alookup, updateTable]
  | cons p rest ih =>
    obtain ⟨n, Tb⟩ := p
    by_cases hn : n = t
    · subst hn
      simp [findTable, alookup, updateTable, Ne.symm h]
    · simp_all [findTable, alookup, updateTable, hn]

theorem colPos_eq_none_iff (cols : List String) (c : String) :
    colPos cols c = none ↔ c ∉ cols := by
  induction cols with
  | nil => simp [colPos]
  | cons k rest ih =>
    by_cases hk : k = c
    · subst hk; simp [colPos]
    · simp [colPos, hk, ih, Option.map_eq_none', Ne.symm hk]

theorem colPos_isSome_of_mem (cols : List String) (c : String) (h : c ∈ cols) :
    (colPos cols c).isSome := by
  rcases hc : colPos cols c with _ | j
  · exact absurd ((colPos_eq_none_iff cols c).1 hc) (by simpa using h)
  · simp

theorem colPos_lt_length (cols : List String) (c : String) (j : Nat)
    (h : colPos cols c = some j) : j < cols.length := by
  induction cols generalizing j with
  | nil => simp [colPos] at h
  | cons k rest ih =>
    by_cases hk : k = c
    · simp [colPos, hk] at h; subst h; simp
    · simp [colPos, hk] at h
      obtain ⟨j', hj', rfl⟩ := h
      have := ih j' hj'
      simp; omega

theorem colPos_getD (cols : List String) (c : String) (j : Nat)
    (h : colPos cols c = some j) : cols.getD j ("") = c := by
  induction cols generalizing j with
  | nil => simp [colPos] at h
  | cons k rest ih =>
    by_cases hk : k = c
    · simp [colPos, hk] at h; subst h; simpa using hk
    · simp [colPos, hk] at h
      obtain ⟨j', hj', rfl⟩ := h
      simpa using ih j' hj'

theorem set_getD_self (l : List Value) (i : Nat) (h : i < l.length) :
    l.set i (l.getD i .null) = l := by
  apply List.ext_getElem?
  intro j
  by_cases hj : i = j
  · subst hj
    rw [List.getElem?_set_self h, List.getD_eq_getElem l _ h, List.getElem?_eq_getElem h]
  · exact List.getElem?_set_ne hj

theorem sanitizeChar_idem (c : Char) : sanitizeChar (sanitizeChar c) = sanitizeChar c := by
  by_cases h : (c.isAlphanum || c = '_') = true
  · simp [sanitizeChar, h]
  · simp only [sanitizeChar, h, if_false]
    rfl

theorem sanitizeChar_eq_self (c : Char)
    (h : c.isAlpha ∨ c.isDigit ∨ c = '_') : sanitizeChar c = c := by
  have hb : (c.isAlphanum || c = '_') = true := by
    rcases h with h | h | h
    · simp [Char.isAlphanum, h]
    · simp [Char.isAlphanum, h]
    · simp [h]
  simp [sanitizeChar, hb]

theorem sanitizeChar_eq_underscore (c : Char)
    (h : ¬ (c.isAlpha ∨ c.isDigit ∨ c = '_')) : sanitizeChar c = '_' := by
  push_neg at h
  have hb : (c.isAlphanum || c = '_') = false := by
    simp [Char.isAlphanum, h.1, h.2.1, h.2.2]
  simp [sanitizeChar, hb]

/-- C9: the Identifier Sanitizer is length-preserving and replaces exactly
each character that is not a letter, digit or underscore with an
underscore (characters that are letters, digits or underscores are kept);
consequently it is idempotent. -/
theorem sanitize_colnames_pointwise_idempotent (s : String) :
    (sanitize_colnames s).length = s.length ∧
    (∀ i : Nat, i < s.length →
      (((s.data.getD i '_').isAlpha ∨ (s.data.getD i '_').isDigit ∨ s.data.getD i '_' = '_') →
        (sanitize_colnames s).data.getD i '_' = s.data.getD i '_') ∧
      (¬ ((s.data.getD i '_').isAlpha ∨ (s.data.getD i '_').isDigit ∨ s.data.getD i '_' = '_') →
        (sanitize_colnames s).data.getD i '_' = '_')) ∧
    sanitize_colnames (sanitize_colnames s) = sanitize_colnames s := by
  refine ⟨?_, ?_, ?_⟩
  · show (s.data.map sanitizeChar).length = s.data.length
    exact List.length_map s.data sanitizeChar
  · intro i hi
    have hi' : i < s.data.length := hi
    have hget : (sanitize_colnames s).data.getD i '_' = sanitizeChar (s.data.getD i '_') := by
      show (s.data.map sanitizeChar).getD i '_' = _
      rw [List.getD_eq_getElem _ _ (by simpa using hi'), List.getD_eq_getElem _ _ hi',
        List.getElem_map]
    constructor
    · intro hword
      rw [hget]
      exact sanitizeChar_eq_self _ hword
    · intro hword
      rw [hget]
      exact sanitizeChar_eq_underscore _ hword
  · show String.mk ((s.data.map sanitizeChar).map sanitizeChar) = String.mk (s.data.map sanitizeChar)
    rw [List.map_map]
    exact congrArg String.mk (List.map_congr_left fun c _ => sanitizeChar_idem c)

/-- Witness for C9 at the test suite input `test-2`: the fifth
character `-` becomes `_`, and a second pass changes nothing. -/
theorem sanitize_colnames_pointwise_idempotent_witness :
    (sanitize_colnames ("test-2")).data.getD 4 '_' = '_' ∧
    sanitize_colnames (sanitize_colnames ("test-2")) = sanitize_colnames ("test-2") :=
  ⟨((sanitize_colnames_pointwise_idempotent ("test-2")).2.1 4 (by decide)).2 (by decide),
   (sanitize_colnames_pointwise_idempotent ("test-2")).2.2⟩

/-- C8: in every `select` call, a non-none `offset` together with
`limit = none` fails with a value error, before any table lookup, column
resolution, `where` evaluation or ordering — for every database, table
name, column argument, `where` argument and order argument. -/
theorem select_offset_without_limit_valueError (db : Database) (t : String)
    (columns : Cols) (w : WhereArg) (order : Option String) (k : Nat) :
    select db t columns w order none (some k) = .error .valueError := by
  simp [select]

/-- C7: with `n > 0` rows, `get_row` at `-1` equals `get_row` at `n - 1`;
`get_row` at `n` and at `-n - 1` both fail with an index error; position
`-k` (for `1 ≤ k ≤ n`) resolves to row `n - k`; and every position at or
beyond the row count on either sign fails with an index error. -/
theorem get_row_negative_index_boundary (db : Database) (t : String) (T : Table)
    (n : Nat) (hT : findTable db t = some T) (hn : T.rows.length = n) (hpos : 0 < n) :
    get_row db t (-1) = get_row db t ((n : Int) - 1) ∧
    get_row db t (n : Int) = .error .indexError ∧
    get_row db t (-(n : Int) - 1) = .error .indexError ∧
    (∀ k : Nat, 1 ≤ k → k ≤ n →
      get_row db t (-(k : Int)) = get_row db t (((n - k : Nat) : Int))) ∧
    (∀ i : Int, ((n : Int) ≤ i ∨ i < -(n : Int)) → get_row db t i = .error .indexError) := by
  refine ⟨?_, ?_, ?_, ?_, ?_⟩
  · simp only [get_row, hT, resolveIndex, hn]
    have h1 : ¬ ((0 : Int) ≤ -1) := by omega
    have h2 : (0 : Int) ≤ -1 + n := by omega
    have h3 : (0 : Int) ≤ (n : Int) - 1 := by omega
    have h4 : (n : Int) - 1 < n := by omega
    simp only [h1, h2, h3, h4, if_true, if_false, ite_true, ite_false]
    have : ((-1 : Int) + n).toNat = ((n : Int) - 1).toNat := by omega
    rw [this]
  · simp only [get_row, hT, resolveIndex, hn]
    have h1 : (0 : Int) ≤ n := by omega
    have h2 : ¬ ((n : Int) < n) := by omega
    simp [h1, h2]
  · simp only [get_row, hT, resolveIndex, hn]
    have h1 : ¬ ((0 : Int) ≤ -(n : Int) - 1) := by omega
    have h2 : ¬ ((0 : Int) ≤ -(n : Int) - 1 + n) := by omega
    simp [h1, h2]
  · intro k hk1 hkn
    simp only [get_row, hT, resolveIndex, hn]
    have h1 : ¬ ((0 : Int) ≤ -(k : Int)) := by omega
    have h2 : (0 : Int) ≤ -(k : Int) + n := by omega
    have h3 : (0 : Int) ≤ ((n - k : Nat) : Int) := by omega
    have h4 : ((n - k : Nat) : Int) < n := by omega
    simp only [h1, h2, h3, h4, if_true, if_false, ite_true, ite_false]
    have : (-(k : Int) + n).toNat = (((n - k : Nat) : Int)).toNat := by omega
    rw [this]
  · intro i hi
    simp only [get_row, hT, resolveIndex, hn]
    rcases hi with hi | hi
    · have h1 : (0 : Int) ≤ i := by omega
      have h2 : ¬ (i < n) := by omega
      simp [h1, h2]
    · have h1 : ¬ ((0 : Int) ≤ i) := by omega
      have h2 : ¬ ((0 : Int) ≤ i + n) := by omega
      simp [h1, h2]

/-- Witness for C7 on the concrete ten-row test table. -/
theorem get_row_negative_index_boundary_witness :
    get_row sampleDb ("test") (-1) = get_row sampleDb ("test") (((10 : Nat) : Int) - 1) ∧
    get_row sampleDb ("test") ((10 : Nat) : Int) = .error .indexError ∧
    get_row sampleDb ("test") (-((10 : Nat) : Int) - 1) = .error .indexError :=
  ⟨(get_row_negative_index_boundary sampleDb ("test") sampleTable 10 rfl rfl (by decide)).1,
   (get_row_negative_index_boundary sampleDb ("test") sampleTable 10 rfl rfl (by decide)).2.1,
   (get_row_negative_index_boundary sampleDb ("test") sampleTable 10 rfl rfl (by decide)).2.2.1⟩

theorem setCell_rows_getElem (T : Table) (k j : Nat) (v : Value) (i' : Nat) :
    (setCell T k j v).rows[i']? =
      if i' = k then (T.rows[k]?).map (fun r => r.set j v) else T.rows[i']? := by
  by_cases h : i' = k
  · subst h
    by_cases hk : i' < T.rows.length
    · rw [setCell]
      simp only
      rw [List.getElem?_set_self hk, List.getD_eq_getElem _ _ hk,
        List.getElem?_eq_getElem hk]
      simp
    · rw [setCell]
      simp only
      rw [List.set_eq_of_length_le (by omega)]
      rw [List.getElem?_eq_none (by omega)]
      simp
  · rw [setCell]
    simp only
    rw [List.getElem?_set_ne (fun hk => h hk.symm)]
    simp [h]

theorem setCell_cols (T : Table) (k j : Nat) (v : Value) :
    (setCell T k j v).cols = T.cols := rfl

theorem cell_write_observed (db : Database) (t c : String) (T : Table)
    (i j : Nat) (v : Value)
    (hT : findTable db t = some T) (hWF : T.WF) (hi : i < T.rows.length)
    (hc : colPos T.cols c = some j) :
    table_values (updateTable db t (setCell T i j v)) t =
      .ok (T.rows.set i ((T.rows.getD i []).set j v)) ∧
    col_values (updateTable db t (setCell T i j v)) ⟨t, c⟩ =
      .ok ((T.rows.map (fun r => r.getD j .null)).set i v) ∧
    row_values (updateTable db t (setCell T i j v)) ⟨t, i⟩ =
      .ok ((T.rows.getD i []).set j v) ∧
    (∀ i' : Nat, i' ≠ i →
      row_values (updateTable db t (setCell T i j v)) ⟨t, i'⟩ = row_values db ⟨t, i'⟩) ∧
    (∀ c' j', colPos T.cols c' = some j' → j' ≠ j →
      col_values (updateTable db t (setCell T i j v)) ⟨t, c'⟩ = col_values db ⟨t, c'⟩) := by
  have hT' : findTable (updateTable db t (setCell T i j v)) t = some (setCell T i j v) :=
    findTable_updateTable db t T _ hT
  have hj : j < T.cols.length := colPos_lt_length T.cols c j hc
  have hmem : T.rows.getD i [] ∈ T.rows := by
    rw [List.getD_eq_getElem _ _ hi]
    exact List.getElem_mem hi
  have hrl : (T.rows.getD i []).length = T.cols.length := hWF _ hmem
  have hrows : (setCell T i j v).rows = T.rows.set i ((T.rows.getD i []).set j v) := rfl
  refine ⟨?_, ?_, ?_, ?_, ?_⟩
  · simp only [table_values, hT']
    rw [hrows]
  · simp only [col_values, hT', setCell_cols, hc, hrows]
    rw [List.map_set]
    have : ((T.rows.getD i []).set j v).getD j .null = v := by
      rw [List.getD_eq_getElem _ _ (by rw [List.length_set, hrl]; exact hj),
        List.getElem_set_self]
    rw [this]
  · simp only [row_values, hT', hrows]
    rw [List.getElem?_set_self hi]
  · intro i' hne
    simp only [row_values, hT', hT, hrows]
    rw [List.getElem?_set_ne (fun h => hne h.symm)]
  · intro c' j' hc' hne
    simp only [col_values, hT', hT, setCell_cols, hc', hrows]
    rw [List.map_set]
    have h1 : ((T.rows.getD i []).set j v).getD j' .null = (T.rows.getD i []).getD j' .null := by
      simp only [List.getD_eq_getElem?_getD]
      rw [List.getElem?_set_ne (fun h => hne h.symm)]
    rw [h1]
    have h2 : (T.rows.map (fun r => r.getD j' .null)).getD i .null =
        (T.rows.getD i []).getD j' .null := by
      rw [List.getD_eq_getElem _ _ (by simpa using hi), List.getElem_map,
        List.getD_eq_getElem T.rows _ hi]
    rw [← h2, set_getD_self _ _ (by simpa using hi)]

theorem resolveIndex_lt (i : Int) (n k : Nat) (h : resolveIndex i n = some k) :
    k < n := by
  unfold resolveIndex at h
  split_ifs at h <;> simp at h <;> omega

theorem setCells_cols (j : Nat) :
    ∀ (ks : List Nat) (vs : List Value) (T : Table), (setCells T j ks vs).cols = T.cols := by
  intro ks
  induction ks with
  | nil => intro vs T; cases vs <;> rfl
  | cons k ks ih =>
    intro vs T
    cases vs with
    | nil => rfl
    | cons v vs => exact ih vs (setCell T k j v)

theorem setCells_scalar_getElem (j : Nat) (v : Value) :
    ∀ (ks : List Nat) (T : Table) (i' : Nat),
      (setCells T j ks (List.replicate ks.length v)).rows[i']? =
        if i' ∈ ks then (T.rows[i']?).map (fun r => r.set j v) else T.rows[i']? := by
  intro ks
  induction ks with
  | nil => intro T i'; simp [setCells]
  | cons k ks ih =>
    intro T i'
    rw [List.length_cons, List.replicate_succ]
    show (setCells (setCell T k j v) j ks (List.replicate ks.length v)).rows[i']? = _
    rw [ih]
    by_cases hmem : i' ∈ ks
    · simp only [hmem, if_true]
      rw [setCell_rows_getElem]
      by_cases hk : i' = k
      · subst hk
        simp only [if_pos rfl, List.mem_cons, true_or, if_true]
        cases T.rows[i']? <;> simp [List.set_set]
      · simp [hk, hmem, List.mem_cons]
    · simp only [hmem, if_false]
      rw [setCell_rows_getElem]
      by_cases hk : i' = k
      · subst hk; simp [List.mem_cons]
      · simp [hk, hmem, List.mem_cons]

theorem resolveAll_eq_none_iff (is : List Int) (n : Nat) :
    resolveAll is n = none ↔ ∃ p ∈ is, resolveIndex p n = none := by
  induction is with
  | nil => simp [resolveAll]
  | cons i rest ih =>
    constructor
    · intro h
      simp only [resolveAll] at h
      rcases h1 : resolveIndex i n with _ | k
      · exact ⟨i, List.mem_cons_self i rest, h1⟩
      · rw [h1] at h
        rcases h2 : resolveAll rest n with _ | ks
        · obtain ⟨p, hp, hpn⟩ := ih.1 h2
          exact ⟨p, List.mem_cons_of_mem i hp, hpn⟩
        · rw [h2] at h; simp at h
    · rintro ⟨p, hp, hpn⟩
      simp only [resolveAll]
      rcases List.mem_cons.1 hp with rfl | hp'
      · rw [hpn]
      · have h2 : resolveAll rest n = none := ih.2 ⟨p, hp', hpn⟩
        rw [h2]
        cases resolveIndex i n <;> rfl

theorem resolveAll_length_lt (is : List Int) (n : Nat) (ks : List Nat)
    (h : resolveAll is n = some ks) :
    ks.length = is.length ∧ ∀ k ∈ ks, k < n := by
  induction is generalizing ks with
  | nil =>
    simp only [resolveAll] at h
    cases h
    simp
  | cons i rest ih =>
    simp only [resolveAll] at h
    rcases h1 : resolveIndex i n with _ | k <;> rw [h1] at h
    · simp at h
    · rcases h2 : resolveAll rest n with _ | ks' <;> rw [h2] at h
      · simp at h
      · cases h
        obtain ⟨hl, hlt⟩ := ih ks' h2
        refine ⟨by simp [hl], ?_⟩
        intro x hx
        rcases List.mem_cons.1 hx with rfl | hx'
        · exact resolveIndex_lt i n x h1
        · exact hlt x hx'

/-- C2: writes through a Row view (`row[col] = v`) and through a Column
view (`column[i] = v`, `column[list-of-positions] = v`,
`column[slice] = v`) all mutate the one underlying store, and the new
value is immediately observed by every other accessor of the same
database (`table_values`, `col_values` of a column view, `row_values` of
a row view), while every cell not addressed by the write is unchanged —
there is no detached copy. -/
theorem view_writes_mutate_live_store (db : Database) (t c : String) (T : Table)
    (i j : Nat) (v : Value)
    (hT : findTable db t = some T) (hWF : T.WF) (hi : i < T.rows.length)
    (hc : colPos T.cols c = some j) :
    row_set db ⟨t, i⟩ (.name c) v = .ok (updateTable db t (setCell T i j v)) ∧
    (∀ ir : Int, resolveIndex ir T.rows.length = some i →
      col_set_int db ⟨t, c⟩ ir v = .ok (updateTable db t (setCell T i j v))) ∧
    table_values (updateTable db t (setCell T i j v)) t =
      .ok (T.rows.set i ((T.rows.getD i []).set j v)) ∧
    col_values (updateTable db t (setCell T i j v)) ⟨t, c⟩ =
      .ok ((T.rows.map (fun r => r.getD j .null)).set i v) ∧
    row_values (updateTable db t (setCell T i j v)) ⟨t, i⟩ =
      .ok ((T.rows.getD i []).set j v) ∧
    (∀ i' : Nat, i' ≠ i →
      row_values (updateTable db t (setCell T i j v)) ⟨t, i'⟩ = row_values db ⟨t, i'⟩) ∧
    (∀ c' j', colPos T.cols c' = some j' → j' ≠ j →
      col_values (updateTable db t (setCell T i j v)) ⟨t, c'⟩ = col_values db ⟨t, c'⟩) ∧
    (∀ ps ks, resolveAll ps T.rows.length = some ks →
      col_set_list db ⟨t, c⟩ ps (.scalar v) =
        .ok (updateTable db t (setCells T j ks (List.replicate ks.length v))) ∧
      (∀ k ∈ ks,
        cellVal (updateTable db t (setCells T j ks (List.replicate ks.length v))) t k j =
          some v)) ∧
    (∀ s : PySlice, s.step ≠ some 0 →
      col_set_slice db ⟨t, c⟩ s (.scalar v) =
        .ok (updateTable db t
          (setCells T j ((sliceIndices s T.rows.length).map Int.toNat)
            (List.replicate ((sliceIndices s T.rows.length).map Int.toNat).length v)))) := by
  obtain ⟨ho1, ho2, ho3, ho4, ho5⟩ := cell_write_observed db t c T i j v hT hWF hi hc
  refine ⟨?_, ?_, ho1, ho2, ho3, ho4, ho5, ?_, ?_⟩
  · simp [row_set, hT, hc, hi]
  · intro ir hir
    simp [col_set_int, hT, hc, hir]
  · intro ps ks hks
    constructor
    · simp [col_set_list, hT, hc, hks, broadcast]
    · intro k hk
      have hklt : k < T.rows.length := (resolveAll_length_lt ps _ ks hks).2 k hk
      have hTS : findTable (updateTable db t (setCells T j ks (List.replicate ks.length v))) t
          = some (setCells T j ks (List.replicate ks.length v)) :=
        findTable_updateTable db t T _ hT
      simp only [cellVal, hTS]
      rw [setCells_scalar_getElem, if_pos hk, List.getElem?_eq_getElem hklt]
      have hrowlen : (T.rows[k]).length = T.cols.length := hWF _ (List.getElem_mem hklt)
      show ((T.rows[k]).set j v)[j]? = some v
      rw [List.getElem?_set_self (by rw [hrowlen]; exact colPos_lt_length T.cols c j hc)]
  · intro s hs
    simp [col_set_slice, hs, hT, hc, broadcast]

/-- Witness for C2 at the test table: writing `row[a] = 1` through the
row-0 view, then observing the new value through the column view. -/
theorem view_writes_mutate_live_store_witness :
    row_set sampleDb ⟨("test"), 0⟩ (.name ("a")) (.int 1) =
      .ok (updateTable sampleDb ("test") (setCell sampleTable 0 0 (.int 1))) ∧
    col_values (updateTable sampleDb ("test") (setCell sampleTable 0 0 (.int 1)))
        ⟨("test"), ("a")⟩ =
      .ok ((sampleTable.rows.map (fun r => r.getD 0 .null)).set 0 (.int 1)) := by
  have h := view_writes_mutate_live_store sampleDb ("test") ("a") sampleTable 0 0 (.int 1)
    rfl (by decide) (by decide) rfl
  exact ⟨h.1, h.2.2.2.1⟩

/-- C3 (amended): a single integer (or negative integer) bracket key on a
TABLE accepts a mapping value and performs a whole-row replace at the
resolved position; at DATABASE level, a single (non-tuple) bracket key of
any kind — integer included — is refused with a key error instead. -/
theorem table_int_setitem_row_replace (db : Database) (t : String) (T : Table)
    (i : Int) (k : Nat) (m : List (String × Value))
    (hT : findTable db t = some T) (hk : resolveIndex i T.rows.length = some k) :
    table_set db t [.int i] (.map m) =
      .ok (updateTable db t
        { T with rows := T.rows.set k (T.cols.map (fun c => (alookup m c).getD .null)) }) ∧
    table_values (updateTable db t
        { T with rows := T.rows.set k (T.cols.map (fun c => (alookup m c).getD .null)) }) t =
      .ok (T.rows.set k (T.cols.map (fun c => (alookup m c).getD .null))) ∧
    column_names (updateTable db t
        { T with rows := T.rows.set k (T.cols.map (fun c => (alookup m c).getD .null)) }) t =
      .ok T.cols ∧
    (∀ b : Bool, ∀ l : List Value, ∀ v : Value,
      table_set db t [.int i] (if b then .seq l else .scalar v) = .error .typeError) ∧
    (∀ sk : TKey, ∀ p : Payload, db_setitem db (.single sk) p = .error .keyError) := by
  have hupd : findTable (updateTable db t
      { T with rows := T.rows.set k (T.cols.map (fun c => (alookup m c).getD .null)) }) t =
      some { T with rows := T.rows.set k (T.cols.map (fun c => (alookup m c).getD .null)) } :=
    findTable_updateTable db t T _ hT
  refine ⟨?_, ?_, ?_, ?_, ?_⟩
  · simp [table_set, set_row, hT, hk]
  · simp [table_values, hupd]
  · simp [column_names, hupd]
  · intro b l v
    cases b <;> simp [table_set, set_row, hT, hk]
  · intro sk p
    rfl

/-- Counterexample for C3 as stated: on the concrete test database, the
Database-level assignment with the single integer key `1` and a mapping
value does not perform a row replace — it fails with a key error. -/
theorem db_single_int_setitem_keyError :
    db_setitem sampleDb (.single (.int 1)) (.map [(("a"), .int 1), (("b"), .int 2)]) =
      .error .keyError ∧
    (db_setitem sampleDb (.single (.int 1))
        (.map [(("a"), .int 1), (("b"), .int 2)])).isOk = false :=
  ⟨rfl, rfl⟩

/-- Witness for C3 (amended) on the one-row test table, at key `0` and at
the negative key `-1`. -/
theorem table_int_setitem_row_replace_witness :
    table_set tinyDb ("test") [.int 0] (.map [(("a"), .int 10), (("b"), .int 20)]) =
      .ok (updateTable tinyDb ("test")
        { tinyTable with rows := tinyTable.rows.set 0 (tinyTable.cols.map
            (fun c => (alookup [(("a"), .int 10), (("b"), .int 20)] c).getD .null)) }) ∧
    table_set tinyDb ("test") [.int (-1)] (.map [(("a"), .int 10), (("b"), .int 20)]) =
      .ok (updateTable tinyDb ("test")
        { tinyTable with rows := tinyTable.rows.set 0 (tinyTable.cols.map
            (fun c => (alookup [(("a"), .int 10), (("b"), .int 20)] c).getD .null)) }) ∧
    db_setitem tinyDb (.single (.int 0))
        (.map [(("a"), .int 10), (("b"), .int 20)]) = .error .keyError :=
  ⟨(table_int_setitem_row_replace tinyDb ("test") tinyTable 0 0
      [(("a"), .int 10), (("b"), .int 20)] rfl (by decide)).1,
   (table_int_setitem_row_replace tinyDb ("test") tinyTable (-1) 0
      [(("a"), .int 10), (("b"), .int 20)] rfl (by decide)).1,
   (table_int_setitem_row_replace tinyDb ("test") tinyTable 0 0
      [(("a"), .int 10), (("b"), .int 20)] rfl (by decide)).2.2.2.2 (.int 0) _⟩

/-- C4 (amended): on a Row view, get and set by an absent column name both
fail with a key error, and get by an integer position outside
`[-ncols, ncols-1]` fails with an index error — but set by an
out-of-range integer position fails with a KEY error, not an index error;
in-range negative positions wrap to `p + ncols` for both get and set. -/
theorem row_view_name_and_position_errors (db : Database) (t : String) (T : Table)
    (i : Nat) (c : String) (hT : findTable db t = some T) (hi : i < T.rows.length)
    (hc : c ∉ T.cols) :
    row_get db ⟨t, i⟩ (.name c) = .error .keyError ∧
    (∀ v, row_set db ⟨t, i⟩ (.name c) v = .error .keyError) ∧
    (∀ p : Int, ((T.cols.length : Int) ≤ p ∨ p < -(T.cols.length : Int)) →
      row_get db ⟨t, i⟩ (.pos p) = .error .indexError ∧
      (∀ v, row_set db ⟨t, i⟩ (.pos p) v = .error .keyError)) ∧
    (∀ p : Int, -(T.cols.length : Int) ≤ p → p < 0 →
      row_get db ⟨t, i⟩ (.pos p) = row_get db ⟨t, i⟩ (.pos (p + T.cols.length)) ∧
      (∀ v, row_set db ⟨t, i⟩ (.pos p) v = row_set db ⟨t, i⟩ (.pos (p + T.cols.length)) v)) := by
  have hcn : colPos T.cols c = none := (colPos_eq_none_iff T.cols c).2 hc
  have hrow : T.rows[i]? = some (T.rows[i]) := List.getElem?_eq_getElem hi
  refine ⟨?_, ?_, ?_, ?_⟩
  · simp [row_get, hT, hrow, hcn]
  · intro v
    simp [row_set, hT, hi, hcn]
  · intro p hp
    have hres : resolveIndex p T.cols.length = none := by
      unfold resolveIndex
      split_ifs <;> first | rfl | (exfalso; omega)
    constructor
    · simp [row_get, hT, hrow, hres]
    · intro v
      simp [row_set, hT, hi, hres]
  · intro p hp1 hp2
    have h1 : resolveIndex p T.cols.length = some ((p + T.cols.length).toNat) := by
      unfold resolveIndex
      split_ifs <;> first | rfl | (exfalso; omega)
    have h2 : resolveIndex (p + T.cols.length) T.cols.length =
        some ((p + T.cols.length).toNat) := by
      unfold resolveIndex
      split_ifs <;> first | rfl | (exfalso; omega)
    constructor
    · simp [row_get, hT, hrow, h1, h2]
    · intro v
      simp [row_set, hT, hi, h1, h2]

/-- Counterexample for C4 as stated: on the concrete test row view, a SET
through an out-of-range integer position (`row[2] = 1`, `row[-3] = 1` on a
two-column row) fails with a key error, which is not the index-error kind
the claim requires. -/
theorem row_set_out_of_range_int_is_keyError :
    row_set sampleDb ⟨("test"), 0⟩ (.pos 2) (.int 1) = .error .keyError ∧
    row_set sampleDb ⟨("test"), 0⟩ (.pos (-3)) (.int 1) = .error .keyError ∧
    DBError.keyError ≠ DBError.indexError :=
  ⟨rfl, rfl, by decide⟩

/-- Witness for C4 (amended) on the concrete test row view. -/
theorem row_view_name_and_position_errors_witness :
    row_get sampleDb ⟨("test"), 0⟩ (.name ("c")) = .error .keyError ∧
    row_set sampleDb ⟨("test"), 0⟩ (.name ("c")) (.int 1) = .error .keyError ∧
    row_get sampleDb ⟨("test"), 0⟩ (.pos 2) = .error .indexError ∧
    row_set sampleDb ⟨("test"), 0⟩ (.pos 2) (.int 1) = .error .keyError ∧
    row_get sampleDb ⟨("test"), 0⟩ (.pos (-1)) =
      row_get sampleDb ⟨("test"), 0⟩ (.pos (-1 + sampleTable.cols.length)) := by
  have h := row_view_name_and_position_errors sampleDb ("test") sampleTable 0 ("c")
    rfl (by decide) (by decide)
  exact ⟨h.1, h.2.1 (.int 1), (h.2.2.1 2 (by decide)).1,
    (h.2.2.1 2 (by decide)).2 (.int 1), (h.2.2.2 (-1) (by decide) (by decide)).1⟩

theorem setCells_scalar_cellVal (db : Database) (t : String) (T : Table)
    (j : Nat) (v : Value) (ks : List Nat)
    (hT : findTable db t = some T) (hWF : T.WF) (hj : j < T.cols.length)
    (hks : ∀ k ∈ ks, k < T.rows.length) :
    (∀ k ∈ ks,
      cellVal (updateTable db t (setCells T j ks (List.replicate ks.length v))) t k j =
        some v) ∧
    (∀ i', i' ∉ ks →
      cellVal (updateTable db t (setCells T j ks (List.replicate ks.length v))) t i' j =
        cellVal db t i' j) ∧
    (∀ i' j', j' ≠ j →
      cellVal (updateTable db t (setCells T j ks (List.replicate ks.length v))) t i' j' =
        cellVal db t i' j') := by
  have hTS : findTable (updateTable db t (setCells T j ks (List.replicate ks.length v))) t =
      some (setCells T j ks (List.replicate ks.length v)) :=
    findTable_updateTable db t T _ hT
  refine ⟨?_, ?_, ?_⟩
  · intro k hk
    have hklt : k < T.rows.length := hks k hk
    simp only [cellVal, hTS]
    rw [setCells_scalar_getElem, if_pos hk, List.getElem?_eq_getElem hklt]
    have hrowlen : (T.rows[k]).length = T.cols.length := hWF _ (List.getElem_mem hklt)
    show ((T.rows[k]).set j v)[j]? = some v
    rw [List.getElem?_set_self (by rw [hrowlen]; exact hj)]
  · intro i' hi'
    simp only [cellVal, hTS, hT]
    rw [setCells_scalar_getElem, if_neg hi']
  · intro i' j' hne
    simp only [cellVal, hTS, hT]
    rw [setCells_scalar_getElem]
    by_cases hi' : i' ∈ ks
    · rw [if_pos hi']
      cases T.rows[i']? with
      | none => rfl
      | some r =>
        show (r.set j v)[j']? = r[j']?
        rw [List.getElem?_set_ne (fun h => hne h.symm)]
    · rw [if_neg hi']

/-- C6: bulk Column-view operations with a list of positions are
all-or-nothing.  If any position in the list is out of range, both the
bulk get and the bulk set fail whole with an index error (and the set
call produces no database at all, so nothing is written); if every
position resolves, the get returns exactly the addressed values and the
set succeeds, writing exactly the addressed cells and leaving every
other cell untouched. -/
theorem column_bulk_ops_all_or_nothing (db : Database) (t c : String) (T : Table)
    (j : Nat) (is : List Int)
    (hT : findTable db t = some T) (hWF : T.WF) (hc : colPos T.cols c = some j) :
    ((∃ p ∈ is, resolveIndex p T.rows.length = none) →
      col_get_list db ⟨t, c⟩ is = .error .indexError ∧
      (∀ sv, col_set_list db ⟨t, c⟩ is sv = .error .indexError)) ∧
    (∀ ks, resolveAll is T.rows.length = some ks →
      (∀ p ∈ is, resolveIndex p T.rows.length ≠ none) ∧
      col_get_list db ⟨t, c⟩ is =
        .ok (ks.map (fun k => (T.rows.getD k []).getD j .null)) ∧
      (∀ v, ∃ db2,
        col_set_list db ⟨t, c⟩ is (.scalar v) = .ok db2 ∧
        (∀ k ∈ ks, cellVal db2 t k j = some v) ∧
        (∀ i', i' ∉ ks → cellVal db2 t i' j = cellVal db t i' j) ∧
        (∀ i' j', j' ≠ j → cellVal db2 t i' j' = cellVal db t i' j'))) := by
  constructor
  · intro hex
    have hnone : resolveAll is T.rows.length = none :=
      (resolveAll_eq_none_iff is T.rows.length).2 hex
    constructor
    · simp [col_get_list, hT, hc, hnone]
    · intro sv
      simp [col_set_list, hT, hc, hnone]
  · intro ks hks
    refine ⟨?_, ?_, ?_⟩
    · intro p hp hpn
      have : resolveAll is T.rows.length = none :=
        (resolveAll_eq_none_iff is T.rows.length).2 ⟨p, hp, hpn⟩
      rw [this] at hks
      cases hks
    · simp [col_get_list, hT, hc, hks]
    · intro v
      refine ⟨updateTable db t (setCells T j ks (List.replicate ks.length v)), ?_, ?_⟩
      · simp [col_set_list, hT, hc, hks, broadcast]
      · exact setCells_scalar_cellVal db t T j v ks hT hWF
          (colPos_lt_length T.cols c j hc) (resolveAll_length_lt is _ ks hks).2

/-- Witness for C6 on the concrete test column: `[10, 11]` fails whole
with an index error on get and set, `[-2, -1]` gathers the last two
values. -/
theorem column_bulk_ops_all_or_nothing_witness :
    col_get_list sampleDb ⟨("test"), ("a")⟩ [10, 11] = .error .indexError ∧
    col_set_list sampleDb ⟨("test"), ("a")⟩ [10, 11] (.scalar (.int 1)) =
      .error .indexError ∧
    col_get_list sampleDb ⟨("test"), ("a")⟩ [-2, -1] = .ok [.int 18, .int 19] := by
  have h1 := (column_bulk_ops_all_or_nothing sampleDb ("test") ("a") sampleTable 0
    [10, 11] rfl (by decide) rfl).1 (by decide)
  have h2 := ((column_bulk_ops_all_or_nothing sampleDb ("test") ("a") sampleTable 0
    [-2, -1] rfl (by decide) rfl).2 [8, 9] (by decide)).2.1
  refine ⟨h1.1, h1.2 _, ?_⟩
  rw [h2]
  rfl

theorem alookup_eq_none_of_not_mem {α : Type} (m : List (String × α)) (c : String)
    (h : c ∉ m.map Prod.fst) : alookup m c = none := by
  induction m with
  | nil => rfl
  | cons kv rest ih =>
    obtain ⟨k, v⟩ := kv
    simp only [List.map_cons, List.mem_cons] at h
    push_neg at h
    have hkc : k ≠ c := fun e => h.1 e.symm
    simp only [alookup]
    rw [if_neg hkc]
    exact ih h.2

theorem alookup_filter_mem (m : List (String × Value)) (cols : List String)
    (c : String) (hc : c ∈ cols) :
    alookup (m.filter (fun kv => kv.1 ∈ cols)) c = alookup m c := by
  induction m with
  | nil => rfl
  | cons kv rest ih =>
    obtain ⟨k, v⟩ := kv
    by_cases hk : k ∈ cols
    · rw [List.filter_cons_of_pos (by simpa using hk)]
      simp only [alookup]
      by_cases hkc : k = c
      · simp [hkc]
      · simp [hkc, ih]
    · rw [List.filter_cons_of_neg (by simpa using hk)]
      have hkc : k ≠ c := fun h => hk (h ▸ hc)
      simp only [alookup, if_neg hkc]
      exact ih

theorem mem_append_newKeys (ks : List String) :
    ∀ (cols : List String) (k : String), k ∈ ks → k ∈ cols ++ newKeys cols ks := by
  induction ks with
  | nil => intro cols k h; cases h
  | cons k0 rest ih =>
    intro cols k h
    rcases List.mem_cons.1 h with rfl | h'
    · by_cases h0 : k ∈ cols
      · simp [newKeys, h0]
      · simp [newKeys, h0]
    · by_cases h0 : k0 ∈ cols
      · simp only [newKeys, h0, if_true]
        exact ih cols k h'
      · simp only [newKeys, h0, if_false]
        have := ih (cols ++ [k0]) k h'
        simp only [List.mem_append, List.mem_cons] at this ⊢
        tauto


/-- C5: `add_row` with a mapping.  With `add_columns` false the column set
is unchanged, keys naming no declared column are silently dropped (the
call equals the call on the mapping restricted to declared columns), and
declared columns the mapping misses get null in the inserted row.  With
`add_columns` true each new key becomes a column, every prior row is
backfilled with null in each new column, and exactly one row is added.  A
non-mapping payload fails with a type error. -/
theorem add_row_drops_or_adds_columns (db : Database) (t : String) (T : Table)
    (m : List (String × Value))
    (hT : findTable db t = some T) (hWF : T.WF) :
    (∃ db1, add_row db t (.map m) false = .ok db1 ∧
      column_names db1 t = column_names db t ∧
      table_values db1 t =
        .ok (T.rows ++ [T.cols.map (fun c => (alookup m c).getD .null)]) ∧
      (∀ c ∈ T.cols, c ∉ m.map Prod.fst → (alookup m c).getD Value.null = Value.null)) ∧
    add_row db t (.map m) false =
      add_row db t (.map (m.filter (fun kv => kv.1 ∈ T.cols))) false ∧
    (∃ db2, add_row db t (.map m) true = .ok db2 ∧
      column_names db2 t = .ok (T.cols ++ newKeys T.cols (m.map Prod.fst)) ∧
      (∀ k ∈ m.map Prod.fst, k ∈ T.cols ++ newKeys T.cols (m.map Prod.fst)) ∧
      (∃ rs, table_values db2 t = .ok rs ∧ rs.length = T.rows.length + 1) ∧
      (∀ i, i < T.rows.length → ∀ j, T.cols.length ≤ j →
        j < T.cols.length + (newKeys T.cols (m.map Prod.fst)).length →
        cellVal db2 t i j = some Value.null)) ∧
    (∀ b : Bool, ∀ l : List Value, add_row db t (.seq l) b = .error .typeError) ∧
    (∀ b : Bool, ∀ v : Value, add_row db t (.scalar v) b = .error .typeError) := by
  refine ⟨?_, ?_, ?_, ?_, ?_⟩
  · refine ⟨updateTable db t
      { cols := T.cols,
        rows := T.rows ++ [T.cols.map (fun c => (alookup m c).getD .null)] },
      ?_, ?_, ?_, ?_⟩
    · simp [add_row, hT]
    · simp [column_names, findTable_updateTable db t T _ hT, hT]
    · simp [table_values, findTable_updateTable db t T _ hT]
    · intro c _ hnm
      rw [alookup_eq_none_of_not_mem m c hnm]
      rfl
  · have hmap : T.cols.map (fun c => (alookup m c).getD Value.null) =
        T.cols.map
          (fun c => (alookup (m.filter (fun kv => kv.1 ∈ T.cols)) c).getD Value.null) := by
      apply List.map_congr_left
      intro c hc
      rw [alookup_filter_mem m T.cols c hc]
    simp only [add_row, hT]
    rw [hmap]
  · refine ⟨updateTable db t
      { cols := T.cols ++ newKeys T.cols (m.map Prod.fst),
        rows := T.rows.map
            (· ++ (newKeys T.cols (m.map Prod.fst)).map (fun _ => Value.null))
          ++ [(T.cols ++ newKeys T.cols (m.map Prod.fst)).map
                (fun c => (alookup m c).getD .null)] },
      ?_, ?_, ?_, ?_, ?_⟩
    · simp [add_row, hT]
    · simp [column_names, findTable_updateTable db t T _ hT]
    · intro k hk
      exact mem_append_newKeys (m.map Prod.fst) T.cols k hk
    · refine ⟨T.rows.map
            (· ++ (newKeys T.cols (m.map Prod.fst)).map (fun _ => Value.null))
          ++ [(T.cols ++ newKeys T.cols (m.map Prod.fst)).map
                (fun c => (alookup m c).getD .null)], ?_, ?_⟩
      · simp only [table_values, findTable_updateTable db t T _ hT]
      · simp
    · intro i hi j hj1 hj2
      have hTS := findTable_updateTable db t T
        ({ cols := T.cols ++ newKeys T.cols (m.map Prod.fst),
           rows := T.rows.map
               (· ++ (newKeys T.cols (m.map Prod.fst)).map (fun _ => Value.null))
             ++ [(T.cols ++ newKeys T.cols (m.map Prod.fst)).map
                   (fun c => (alookup m c).getD .null)] }) hT
      simp only [cellVal, hTS]
      have hlen : i < (T.rows.map
          (· ++ (newKeys T.cols (m.map Prod.fst)).map (fun _ => Value.null))).length := by
        simpa using hi
      rw [List.getElem?_append_left hlen, List.getElem?_map,
        List.getElem?_eq_getElem hi]
      have hrl : (T.rows[i]).length = T.cols.length := hWF _ (List.getElem_mem hi)
      show ((T.rows[i]) ++ (newKeys T.cols (m.map Prod.fst)).map (fun _ => Value.null))[j]?
        = some Value.null
      rw [List.getElem?_append_right (by omega)]
      rw [List.getElem?_map]
      rw [List.getElem?_eq_getElem (l := newKeys T.cols (m.map Prod.fst)) (by omega)]
      rfl
  · intro b l
    simp [add_row, hT]
  · intro b v
    simp [add_row, hT]

/-- Witness for C5 on the one-row test table with the mapping
`{a: 3, c: 4}` (`c` undeclared): dropping `c` changes nothing, the
missing declared column `b` gets null, and a sequence payload is a type
error. -/
theorem add_row_drops_or_adds_columns_witness :
    add_row tinyDb ("test") (.map [(("a"), .int 3), (("c"), .int 4)]) false =
      add_row tinyDb ("test")
        (.map ([(("a"), .int 3), (("c"), .int 4)].filter
          (fun kv => kv.1 ∈ tinyTable.cols))) false ∧
    (alookup [(("a"), .int 3), (("c"), .int 4)] ("b")).getD Value.null = Value.null ∧
    add_row tinyDb ("test") (.seq [.int 1, .int 2]) false = .error .typeError := by
  obtain ⟨⟨db1, _, _, _, hnull⟩, hfilter, _, hseq, _⟩ :=
    add_row_drops_or_adds_columns tinyDb ("test") tinyTable
      [(("a"), .int 3), (("c"), .int 4)] rfl (by decide)
  exact ⟨hfilter, hnull ("b") (by decide) (by decide), hseq false [.int 1, .int 2]⟩

/-- C10: `add_column` — with or without data — and `add_row` (either
`add_columns` mode) leave every previously stored cell unchanged: the
value of every pre-existing row at every pre-existing column position is
exactly what it was, the old column list stays an unchanged initial
segment of the new one, and other tables are untouched. -/
theorem add_ops_preserve_existing_cells (db : Database) (t : String) (T : Table)
    (hT : findTable db t = some T) (hWF : T.WF) :
    (∀ nm, ∃ db1, add_column db t nm none = .ok db1 ∧
      (∀ i j, i < T.rows.length → j < T.cols.length →
        cellVal db1 t i j = cellVal db t i j) ∧
      (∃ cs, column_names db1 t = .ok cs ∧ cs.take T.cols.length = T.cols) ∧
      (∀ t', t' ≠ t → findTable db1 t' = findTable db t')) ∧
    (∀ nm d, d.length = T.rows.length ∨ T.rows.length = 0 →
      ∃ db2, add_column db t nm (some d) = .ok db2 ∧
      (∀ i j, i < T.rows.length → j < T.cols.length →
        cellVal db2 t i j = cellVal db t i j) ∧
      (∃ cs, column_names db2 t = .ok cs ∧ cs.take T.cols.length = T.cols) ∧
      (∀ t', t' ≠ t → findTable db2 t' = findTable db t')) ∧
    (∀ m b, ∃ db3, add_row db t (.map m) b = .ok db3 ∧
      (∀ i j, i < T.rows.length → j < T.cols.length →
        cellVal db3 t i j = cellVal db t i j) ∧
      (∃ cs, column_names db3 t = .ok cs ∧ cs.take T.cols.length = T.cols) ∧
      (∀ t', t' ≠ t → findTable db3 t' = findTable db t')) := by
  refine ⟨?_, ?_, ?_⟩
  · intro nm
    refine ⟨updateTable db t
      { cols := T.cols ++ [sanitize_colnames nm],
        rows := T.rows.map (· ++ [Value.null]) }, ?_, ?_, ?_, ?_⟩
    · simp [add_column, hT]
    · intro i j hi hj
      have hTS := findTable_updateTable db t T
        ({ cols := T.cols ++ [sanitize_colnames nm],
           rows := T.rows.map (· ++ [Value.null]) }) hT
      simp only [cellVal, hTS, hT]
      rw [List.getElem?_map, List.getElem?_eq_getElem hi]
      have hrl : (T.rows[i]).length = T.cols.length := hWF _ (List.getElem_mem hi)
      show ((T.rows[i]) ++ [Value.null])[j]? = _
      rw [List.getElem?_append_left (by omega)]
    · refine ⟨T.cols ++ [sanitize_colnames nm], ?_, List.take_left T.cols _⟩
      simp [column_names, findTable_updateTable db t T _ hT]
    · intro t' hne
      exact findTable_updateTable_ne db t t' _ hne
  · intro nm d hd
    by_cases h0 : T.rows.length = 0
    · refine ⟨updateTable db t
        { cols := T.cols ++ [sanitize_colnames nm],
          rows := d.map (fun v => (T.cols.map fun _ => Value.null) ++ [v]) }, ?_, ?_, ?_, ?_⟩
      · simp [add_column, hT, h0]
      · intro i j hi hj
        omega
      · refine ⟨T.cols ++ [sanitize_colnames nm], ?_, List.take_left T.cols _⟩
        simp [column_names, findTable_updateTable db t T _ hT]
      · intro t' hne
        exact findTable_updateTable_ne db t t' _ hne
    · have hdl : d.length = T.rows.length := by omega
      refine ⟨updateTable db t
        { cols := T.cols ++ [sanitize_colnames nm],
          rows := (T.rows.zip d).map (fun rv => rv.1 ++ [rv.2]) }, ?_, ?_, ?_, ?_⟩
      · simp [add_column, hT, h0, hdl]
      · intro i j hi hj
        have hTS := findTable_updateTable db t T
          ({ cols := T.cols ++ [sanitize_colnames nm],
             rows := (T.rows.zip d).map (fun rv => rv.1 ++ [rv.2]) }) hT
        simp only [cellVal, hTS, hT]
        have hzip : (T.rows.zip d)[i]? = some (T.rows[i], d[i]) := by
          rw [List.getElem?_zip_eq_some]
          exact ⟨List.getElem?_eq_getElem hi, List.getElem?_eq_getElem (by omega)⟩
        rw [List.getElem?_map, hzip, List.getElem?_eq_getElem hi]
        have hrl : (T.rows[i]).length = T.cols.length := hWF _ (List.getElem_mem hi)
        show ((T.rows[i]) ++ [d[i]])[j]? = _
        rw [List.getElem?_append_left (by omega)]
      · refine ⟨T.cols ++ [sanitize_colnames nm], ?_, List.take_left T.cols _⟩
        simp [column_names, findTable_updateTable db t T _ hT]
      · intro t' hne
        exact findTable_updateTable_ne db t t' _ hne
  · intro m b
    cases b
    · refine ⟨updateTable db t
        { cols := T.cols,
          rows := T.rows ++ [T.cols.map (fun c => (alookup m c).getD .null)] },
        ?_, ?_, ?_, ?_⟩
      · simp [add_row, hT]
      · intro i j hi hj
        have hTS := findTable_updateTable db t T
          ({ cols := T.cols,
             rows := T.rows ++ [T.cols.map (fun c => (alookup m c).getD .null)] }) hT
        simp only [cellVal, hTS, hT]
        rw [List.getElem?_append_left hi]
      · exact ⟨T.cols, by simp [column_names, findTable_updateTable db t T _ hT],
          List.take_length T.cols⟩
      · intro t' hne
        exact findTable_updateTable_ne db t t' _ hne
    · refine ⟨updateTable db t
        { cols := T.cols ++ newKeys T.cols (m.map Prod.fst),
          rows := T.rows.map
              (· ++ (newKeys T.cols (m.map Prod.fst)).map (fun _ => Value.null))
            ++ [(T.cols ++ newKeys T.cols (m.map Prod.fst)).map
                  (fun c => (alookup m c).getD .null)] }, ?_, ?_, ?_, ?_⟩
      · simp [add_row, hT]
      · intro i j hi hj
        have hTS := findTable_updateTable db t T
          ({ cols := T.cols ++ newKeys T.cols (m.map Prod.fst),
             rows := T.rows.map
                 (· ++ (newKeys T.cols (m.map Prod.fst)).map (fun _ => Value.null))
               ++ [(T.cols ++ newKeys T.cols (m.map Prod.fst)).map
                     (fun c => (alookup m c).getD .null)] }) hT
        simp only [cellVal, hTS, hT]
        have hlen : i < (T.rows.map
            (· ++ (newKeys T.cols (m.map Prod.fst)).map (fun _ => Value.null))).length := by
          simpa using hi
        rw [List.getElem?_append_left hlen, List.getElem?_map,
          List.getElem?_eq_getElem hi]
        have hrl : (T.rows[i]).length = T.cols.length := hWF _ (List.getElem_mem hi)
        show ((T.rows[i]) ++ (newKeys T.cols (m.map Prod.fst)).map
            (fun _ => Value.null))[j]? = _
        rw [List.getElem?_append_left (by omega)]
      · refine ⟨T.cols ++ newKeys T.cols (m.map Prod.fst), ?_, List.take_left T.cols _⟩
        simp [column_names, findTable_updateTable db t T _ hT]
      · intro t' hne
        exact findTable_updateTable_ne db t t' _ hne

/-- Witness for C10: adding column `c` to the one-row test table leaves
cell (0,0) unchanged. -/
theorem add_ops_preserve_existing_cells_witness :
    cellVal (updateTable tinyDb ("test")
      { cols := tinyTable.cols ++ [sanitize_colnames ("c")],
        rows := tinyTable.rows.map (· ++ [Value.null]) }) ("test") 0 0 =
      cellVal tinyDb ("test") 0 0 ∧
    cellVal tinyDb ("test") 0 0 = some (.int 1) := by
  obtain ⟨db1, heq, hcell, _, _⟩ :=
    (add_ops_preserve_existing_cells tinyDb ("test") tinyTable rfl (by decide)).1 ("c")
  have h2 : add_column tinyDb ("test") ("c") none =
      .ok (updateTable tinyDb ("test")
        { cols := tinyTable.cols ++ [sanitize_colnames ("c")],
          rows := tinyTable.rows.map (· ++ [Value.null]) }) := rfl
  rw [heq] at h2
  have hdb := Except.ok.inj h2
  rw [← hdb]
  exact ⟨hcell 0 0 (by decide) (by decide), by decide⟩

/-- C1 (amended): a `select` naming a single column as a plain string
behaves exactly like the one-element explicit list form: each successful
result is a sequence of one-element row tuples — one per matching row in
the selected window, the same count as a same-window `select` of all
columns — and never the flat-scalars shape. -/
theorem select_single_column_returns_one_tuples (db : Database) (t c : String)
    (w : WhereArg) (order : Option String) (limit offset : Option Nat)
    (res : SelectResult)
    (h : select db t (.one c) w order limit offset = .ok res) :
    select db t (.list [c]) w order limit offset = .ok res ∧
    (∃ rs, res = .rows rs ∧ (∀ r ∈ rs, r.length = 1) ∧
      (∃ rs2, select db t .all w order limit offset = .ok (.rows rs2) ∧
        rs.length = rs2.length)) ∧
    SelectResult.isFlat (select db t (.one c) w order limit offset) = false := by
  have key : ∃ rs, res = .rows rs ∧ (∀ r ∈ rs, r.length = 1) ∧
      (∃ rs2, select db t .all w order limit offset = .ok (.rows rs2) ∧
        rs.length = rs2.length) := by
    simp only [select] at h
    by_cases hc1 : (offset.isSome && limit.isNone) = true
    · rw [if_pos hc1] at h
      exact absurd h (by simp)
    · rw [if_neg hc1] at h
      by_cases hc2 : (!whereOk w) = true
      · rw [if_pos hc2] at h
        exact absurd h (by simp)
      · rw [if_neg hc2] at h
        rcases hfT : findTable db t with _ | T <;> simp only [hfT] at h
        · exact absurd h (by simp)
        · by_cases hone : ([c].all (fun c' => (colPos T.cols c').isSome)) = true
          · rw [if_pos hone] at h
            rcases hwf : whereFilter T w with e | matched <;> simp only [hwf] at h
            · exact absurd h (by simp)
            · rcases horder : orderRows T order matched with e | sorted <;>
                simp only [horder] at h
              · exact absurd h (by simp)
              · have hres : res = .rows (projectRows T [c] (paginate limit offset sorted)) :=
                  (Except.ok.inj h).symm
                refine ⟨projectRows T [c] (paginate limit offset sorted), hres, ?_, ?_⟩
                · intro r hr
                  simp only [projectRows, List.mem_map] at hr
                  obtain ⟨row, _, rfl⟩ := hr
                  simp
                · have hall : (T.cols.all (fun c' => (colPos T.cols c').isSome)) = true := by
                    rw [List.all_eq_true]
                    intro x hx
                    simpa using colPos_isSome_of_mem T.cols x hx
                  refine ⟨projectRows T T.cols (paginate limit offset sorted), ?_, ?_⟩
                  · simp only [select, hfT]
                    rw [if_neg hc1, if_neg hc2, if_pos hall]
                    simp only [hwf, horder]
                  · simp [projectRows]
          · rw [if_neg hone] at h
            exact absurd h (by simp)
  refine ⟨h, key, ?_⟩
  obtain ⟨rs, hres, _⟩ := key
  rw [h, hres]
  rfl

/-- Counterexample for C1 as stated: on the test table,
`select(columns='a', limit=3, offset=2)` returns the one-tuple rows
`[(12,), (13,), (14,)]`, not a flat sequence of scalars — the one-tuple
shape and the flat shape are distinct values. -/
theorem select_single_column_not_flat :
    select sampleDb ("test") (.one ("a")) .absent none (some 3) (some 2) =
      .ok (.rows [[.int 12], [.int 13], [.int 14]]) ∧
    SelectResult.isFlat
      (select sampleDb ("test") (.one ("a")) .absent none (some 3) (some 2)) = false ∧
    SelectResult.rows [[.int 12], [.int 13], [.int 14]] ≠
      SelectResult.flat [.int 12, .int 13, .int 14] :=
  ⟨rfl, rfl, by decide⟩

/-- Witness for C1 (amended) at the same concrete call. -/
theorem select_single_column_returns_one_tuples_witness :
    select sampleDb ("test") (.list [("a")]) .absent none (some 3) (some 2) =
      .ok (.rows [[.int 12], [.int 13], [.int 14]]) ∧
    SelectResult.isFlat
      (select sampleDb ("test") (.one ("a")) .absent none (some 3) (some 2)) = false := by
  have h := select_single_column_returns_one_tuples sampleDb ("test") ("a") .absent
    none (some 3) (some 2) (.rows [[.int 12], [.int 13], [.int 14]]) rfl
  exact ⟨h.1, h.2.2⟩
